import Mathlib

/-!
Shallow embedding of the task-manager API core: the authentication guard
(src/middleware/authentication.js), the user model and its lifecycle hooks
(models/user.js), the task model (src/models/task.js), and the user/task
routers.  JavaScript strings are modelled as `List Char` where character-level
operations matter (the Authorization header), JWTs are modelled symbolically
as an injective encoding of the signed payload, and bcrypt is modelled as a
free one-way constructor.  MongoDB collections are lists; `findOne` is
`List.find?`.
-/

namespace TaskManager

/-! ### JS string.replace(pat, rep) — replaces the FIRST occurrence only -/

/-- chars of the JS literal `"Bearer "` used by the auth middleware. -/
def bearerPat : List Char := ['B', 'e', 'a', 'r', 'e', 'r', ' ']

/-- whether `pat` occurs at the head of `s`. -/
def headMatches : List Char → List Char → Bool
  | [], _ => true
  | _ :: _, [] => false
  | a :: as, b :: bs => a = b && headMatches as bs

/-- split `s` at the first occurrence of `pat`: `some (before, after)`,
or `none` when `pat` never occurs. -/
def findSub (pat : List Char) : List Char → Option (List Char × List Char)
  | [] => if pat.isEmpty then some ([], []) else none
  | c :: rest =>
    if headMatches pat (c :: rest) then some ([], (c :: rest).drop pat.length)
    else
      match findSub pat rest with
      | some (pre, post) => some (c :: pre, post)
      | none => none

/-- JS `s.replace(pat, rep)` with string arguments: replace the first
occurrence of `pat` (if any) by `rep`. -/
def replaceFirstStr (pat rep s : List Char) : List Char :=
  match findSub pat s with
  | some (pre, post) => pre ++ rep ++ post
  | none => s

/-- the header processing of the auth middleware:
`req.header('Authorization').replace('Bearer ', '')`. -/
def stripBearer (h : List Char) : List Char :=
  replaceFirstStr bearerPat [] h

/-- substring test (used for the "password must not contain password" rule). -/
def hasSub (pat s : List Char) : Bool :=
  (findSub pat s).isSome

/-- ASCII whitespace, for the schema `trim` setters. -/
def isWs (c : Char) : Bool :=
  c = ' ' || c = '\t' || c = '\n' || c = '\r'

/-- trim leading and trailing whitespace from a char list. -/
def trimChars (l : List Char) : List Char :=
  ((l.dropWhile isWs).reverse.dropWhile isWs).reverse

/-- the `trim: true` schema setter. -/
def jsTrim (s : String) : String :=
  String.mk (trimChars s.data)

/-- ASCII lowercasing of one character. -/
def lowerChar (c : Char) : Char :=
  if 'A' ≤ c && c ≤ 'Z' then Char.ofNat (c.toNat + 32) else c

/-- the `lowercase: true` schema setter / JS `toLowerCase()`. -/
def jsLower (s : String) : String :=
  String.mk (s.data.map lowerChar)

/-- JS `s.split(sep)` for a one-character separator. -/
def splitChar (sep : Char) : List Char → List (List Char)
  | [] => [[]]
  | c :: rest =>
    let r := splitChar sep rest
    if c = sep then [] :: r
    else
      match r with
      | h :: t => (c :: h) :: t
      | [] => [[c]]

/-! ### Symbolic JWT: jwt.sign / jwt.verify -/

/-- the payload and signature material of a token produced by
`jwt.sign({ _id: user._id.toString() }, process.env.JWT_SECRET)`:
the embedded user id, the implicit `iat` issued-at stamp jsonwebtoken
adds, and the secret the signature binds it to. -/
structure Jwt where
  uid : Nat
  iat : Nat
  secret : Nat
deriving DecidableEq, Repr

/-- the opaque wire form of a JWT: an injective encoding of the payload
into a string (unary digits, so round-trips are provable). -/
def encTok (j : Jwt) : List Char :=
  'J' :: (List.replicate j.uid 'x' ++ '.' :: (List.replicate j.iat 'x' ++ '.' :: List.replicate j.secret 'x'))

/-- decode the wire form back into the payload (the parsing half of
`jwt.verify`; returns `none` on a malformed token). -/
def parseTok (s : List Char) : Option Jwt :=
  match s with
  | 'J' :: rest =>
    let a := (rest.takeWhile (· == 'x')).length
    match rest.dropWhile (· == 'x') with
    | '.' :: r2 =>
      let b := (r2.takeWhile (· == 'x')).length
      match r2.dropWhile (· == 'x') with
      | '.' :: r3 => if r3.all (· == 'x') then some ⟨a, b, r3.length⟩ else none
      | _ => none
    | _ => none
  | _ => none

/-- the server-side signing secret, `process.env.JWT_SECRET`. -/
def serverSecret : Nat := 42

/-- `jwt.verify(token, secret)`: succeeds with the payload iff the token
parses and its signature was produced with `secret`. -/
def jwtVerify (tok : List Char) (secret : Nat) : Option Jwt :=
  match parseTok tok with
  | some j => if j.secret = secret then some j else none
  | none => none

/-! ### bcrypt as a free one-way constructor -/

/-- a password value at rest: either the submitted plaintext or the bcrypt
hash of an underlying value.  Hashing twice yields `hashed (hashed _)`,
distinct from the single hash — capturing why the dirty-field check matters. -/
inductive PwdVal where
  | plain (s : String)
  | hashed (v : PwdVal)
deriving DecidableEq, Repr

/-- `bcrypt.hash(value, 8)`. -/
def bcryptHash (v : PwdVal) : PwdVal := .hashed v

/-- `bcrypt.compare(pw, stored)`: true iff `stored` is exactly the hash of
the plaintext `pw`. -/
def bcryptCompare (pw : String) (stored : PwdVal) : Bool :=
  stored = bcryptHash (.plain pw)

/-! ### JSON values appearing in request bodies -/

/-- a JSON scalar in a request body. -/
inductive Val where
  | vStr (s : String)
  | vBool (b : Bool)
  | vNat (n : Nat)
deriving DecidableEq, Repr

/-- mongoose cast of a body value to a schema `String` path. -/
def castStr : Val → String
  | .vStr s => s
  | .vBool b => toString b
  | .vNat n => toString n

/-- mongoose cast of a body value to a schema `Boolean` path. -/
def castBool : Val → Bool
  | .vBool b => b
  | .vStr s => s ≠ ""
  | .vNat n => n ≠ 0

/-- mongoose cast of a body value to a numeric / ObjectId path. -/
def castNat : Val → Nat
  | .vNat n => n
  | _ => 0

/-- read field `k` of a JS object literal (later keys override earlier). -/
def lookupVal (body : List (String × Val)) (k : String) : Option Val :=
  (body.reverse.find? (fun kv => kv.1 == k)).map (·.2)

/-- `{ ...body, k : v }`: the object spread with field `k` overridden. -/
def setKey (body : List (String × Val)) (k : String) (v : Val) : List (String × Val) :=
  body.filter (fun kv => kv.1 ≠ k) ++ [(k, v)]

/-! ### Data model: User, Task, collections -/

/-- a `tokens` array entry of the user schema: `{ token: String }`. -/
structure TokenDoc where
  token : List Char
deriving DecidableEq, Repr

/-- a persisted user document (models/user.js), plus the mongoose
dirty-flag for the password path that `isModified('password')` reads. -/
structure User where
  _id : Nat
  name : String
  email : String
  password : PwdVal
  age : Nat
  tokens : List TokenDoc
  avatar : Option (List Nat)
  createdAt : Nat
  updatedAt : Nat
  passwordDirty : Bool
deriving DecidableEq, Repr

/-- a persisted task document (models/task.js). -/
structure Task where
  _id : Nat
  description : String
  completed : Bool
  owner : Nat
  createdAt : Nat
deriving DecidableEq, Repr

/-- the database: the users and tasks collections. -/
structure Db where
  users : List User
  tasks : List Task
deriving DecidableEq, Repr

/-- the object produced by `userSchema.methods.toJSON`: `toObject()` with
`password`, `tokens` and `avatar` deleted. -/
structure UserJson where
  _id : Nat
  name : String
  email : String
  age : Nat
  createdAt : Nat
  updatedAt : Nat
deriving DecidableEq, Repr

/-- serialize a user for a response body (userSchema.methods.toJSON). -/
def toJSON (u : User) : UserJson :=
  { _id := u._id, name := u.name, email := u.email, age := u.age,
    createdAt := u.createdAt, updatedAt := u.updatedAt }

/-! ### Responses -/

/-- a response body. -/
inductive Body where
  | empty
  | errorMsg (msg : String)
  | validationErr
  | task (t : Task)
  | tasks (ts : List Task)
  | userJson (u : UserJson)
  | userWithToken (u : UserJson) (tok : List Char)
deriving DecidableEq, Repr

/-- an HTTP response: status code and body. -/
structure Response where
  status : Nat
  body : Body
deriving DecidableEq, Repr

/-- the uniform failure response of the auth middleware:
`res.status(401).send({ error: "Please authenticate." })`. -/
def fail401 : Response :=
  { status := 401, body := .errorMsg "Please authenticate." }

/-! ### User schema validation and save (pre-save hook) -/

/-- `validator.isEmail`, abstracted: the library-provided syntax check. -/
def emailOk (s : String) : Bool :=
  s.data.contains '@'

/-- the password path validators: minlength 7 and must not contain the
word "password" (case-insensitively); a stored hash re-validates trivially. -/
def pwdOk : PwdVal → Bool
  | .plain s => 7 ≤ s.length && !(hasSub "password".data (jsLower s).data)
  | .hashed _ => true

/-- document validation run by mongoose before the save middleware:
required non-empty trimmed name, email syntax, password rules. -/
def validateUser (u : User) : Bool :=
  jsTrim u.name ≠ "" && emailOk u.email && pwdOk u.password

/-- the `userSchema.pre('save')` hook: hash the password only when the
password path was modified, then clear the dirty flag. -/
def preSaveHash (u : User) : User :=
  if u.passwordDirty then
    { u with password := bcryptHash u.password, passwordDirty := false }
  else u

/-- `user.save()`: validate, then run the pre-save hook; `none` models a
thrown ValidationError. -/
def saveUser (u : User) : Option User :=
  if validateUser u then some (preSaveHash u) else none

/-- `userSchema.statics.findByCredentials`: look the user up by email and
compare the plaintext against the stored hash. -/
def findByCredentials (db : Db) (email pw : String) : Option User :=
  match db.users.find? (fun u => u.email == email) with
  | none => none
  | some u => if bcryptCompare pw u.password then some u else none

/-- `userSchema.methods.generateAuthToken`: sign `{ _id: user._id }` with
the server secret (jsonwebtoken stamps the issue time `now`), append the
token to the user's list, and save. -/
def generateAuthToken (u : User) (now : Nat) : List Char × Option User :=
  let token := encTok { uid := u._id, iat := now, secret := serverSecret }
  (token, saveUser { u with tokens := u.tokens ++ [{ token := token }] })

/-! ### The authentication guard (middleware/authentication.js) -/

/-- the `auth` middleware up to its success/failure decision: strip the
`Bearer ` prefix by first-occurrence replacement, verify the JWT against
the server secret, and resolve
`User.findOne({ _id: decoded._id, 'tokens.token': token })`.
`none` models every thrown error collapsing into the catch block. -/
def authGuard (db : Db) (header : Option (List Char)) : Option (User × List Char) :=
  match header with
  | none => none
  | some h =>
    let token := stripBearer h
    match jwtVerify token serverSecret with
    | none => none
    | some decoded =>
      match db.users.find? (fun u => u._id == decoded.uid && u.tokens.any (fun td => td.token == token)) with
      | none => none
      | some user => some (user, token)

/-- run a protected route: on guard failure send the uniform 401 without
invoking the handler; on success pass `req.user` and `req.token` on. -/
def runAuthed (db : Db) (header : Option (List Char))
    (handler : User → List Char → Response × Db) : Response × Db :=
  match authGuard db header with
  | none => (fail401, db)
  | some (u, tok) => handler u tok

/-! ### User router (routers/user.js) -/

/-- update the stored document for a saved user (keyed by `_id`). -/
def replaceUser (db : Db) (u : User) : Db :=
  { db with users := db.users.map (fun x => if x._id == u._id then u else x) }

/-- `new User(req.body)`: construct the document from the body fields,
applying the schema setters (trim on name and password, trim+lowercase on
email); `passwordDirty` is the new document's modified-paths flag. -/
def buildUser (body : List (String × Val)) (newId now : Nat) : User :=
  { _id := newId
    name := (match lookupVal body "name" with | some v => jsTrim (castStr v) | none => "")
    email := (match lookupVal body "email" with | some v => jsLower (jsTrim (castStr v)) | none => "")
    password := (match lookupVal body "password" with | some v => .plain (jsTrim (castStr v)) | none => .plain "")
    age := (match lookupVal body "age" with | some v => castNat v | none => 0)
    tokens := []
    avatar := none
    createdAt := now
    updatedAt := now
    passwordDirty := (lookupVal body "password").isSome }

/-- `POST /users`: build the user, `generateAuthToken()` (which saves,
hashing the fresh password), then the route's own second `save()`, then
201 with `{ user, token }`; any validation or duplicate-email failure is
caught as 400. -/
def registerUser (db : Db) (body : List (String × Val)) (newId now : Nat) : Response × Db :=
  let u0 := buildUser body newId now
  let issue := generateAuthToken u0 now
  match issue.2 with
  | none => ({ status := 400, body := .validationErr }, db)
  | some u1 =>
    if db.users.any (fun x => x.email == u1.email) then
      ({ status := 400, body := .validationErr }, db)
    else
      match saveUser u1 with
      | none => ({ status := 400, body := .validationErr }, db)
      | some u2 =>
        ({ status := 201, body := .userWithToken (toJSON u2) issue.1 },
         { db with users := db.users ++ [u2] })

/-- the user document actually persisted by POST /users: the constructed
document with the freshly issued token appended and the pre-save hook
(validation happens first) applied. -/
def registeredUser (body : List (String × Val)) (newId now : Nat) : User :=
  preSaveHash { buildUser body newId now with
    tokens := (buildUser body newId now).tokens
      ++ [{ token := encTok { uid := newId, iat := now, secret := serverSecret } }] }

/-- `POST /users/login`: `findByCredentials` then `generateAuthToken`;
any failure is caught as a bare 400. -/
def loginUser (db : Db) (email pw : String) (now : Nat) : Response × Db :=
  match findByCredentials db email pw with
  | none => ({ status := 400, body := .empty }, db)
  | some u =>
    let issue := generateAuthToken u now
    match issue.2 with
    | some u2 => ({ status := 200, body := .userWithToken (toJSON u2) issue.1 }, replaceUser db u2)
    | none => ({ status := 400, body := .empty }, db)

/-- `POST /users/logout` handler body: filter the current token out of
`req.user.tokens` and save. -/
def logoutHandler (db : Db) (u : User) (tok : List Char) : Response × Db :=
  let u1 := { u with tokens := u.tokens.filter (fun td => td.token != tok) }
  match saveUser u1 with
  | some u2 => ({ status := 200, body := .empty }, replaceUser db u2)
  | none => ({ status := 500, body := .empty }, db)

/-- `POST /users/logoutAll` handler body: clear `req.user.tokens` and save. -/
def logoutAllHandler (db : Db) (u : User) : Response × Db :=
  let u1 := { u with tokens := [] }
  match saveUser u1 with
  | some u2 => ({ status := 200, body := .empty }, replaceUser db u2)
  | none => ({ status := 500, body := .empty }, db)

/-- the user document as persisted by the logout handler: the current
token filtered out, then the pre-save hook applied. -/
def revokeOne (a : User) (tok : List Char) : User :=
  preSaveHash { a with tokens := a.tokens.filter (fun td => td.token != tok) }

/-- the user document as persisted by the logout-all handler: an empty
token list, then the pre-save hook applied. -/
def revokeAll (a : User) : User :=
  preSaveHash { a with tokens := [] }

/-- `GET /users/me`: send the authenticated user (serialized by toJSON). -/
def epGetUsersMe (db : Db) (header : Option (List Char)) : Response × Db :=
  runAuthed db header (fun u _ => ({ status := 200, body := .userJson (toJSON u) }, db))

/-- the `POST /users/logout` endpoint, guard included. -/
def epLogout (db : Db) (header : Option (List Char)) : Response × Db :=
  runAuthed db header (logoutHandler db)

/-- the `POST /users/logoutAll` endpoint, guard included. -/
def epLogoutAll (db : Db) (header : Option (List Char)) : Response × Db :=
  runAuthed db header (fun u _ => logoutAllHandler db u)

/-- the mutable-field allow-list of `PATCH /users/me`. -/
def userAllowList : List String := ["name", "email", "password", "age"]

/-- the dynamic assignment `req.user[update] = req.body[update]`, with the
schema setters applied; assigning the password marks the path dirty. -/
def setUserField (u : User) (k : String) (v : Val) : User :=
  if k = "name" then { u with name := jsTrim (castStr v) }
  else if k = "email" then { u with email := jsLower (jsTrim (castStr v)) }
  else if k = "password" then { u with password := .plain (jsTrim (castStr v)), passwordDirty := true }
  else if k = "age" then { u with age := castNat v }
  else u

/-- the `updates.forEach` loop of the user patch handler. -/
def applyUserUpdates (u : User) (body : List (String × Val)) : User :=
  body.foldl (fun acc kv => setUserField acc kv.1 kv.2) u

/-- `PATCH /users/me` handler body: allow-list check, dynamic assignment,
save. -/
def patchUserHandler (db : Db) (u : User) (body : List (String × Val)) : Response × Db :=
  if (body.map (·.1)).all (fun k => userAllowList.contains k) then
    let u1 := applyUserUpdates u body
    match saveUser u1 with
    | some u2 => ({ status := 200, body := .userJson (toJSON u2) }, replaceUser db u2)
    | none => ({ status := 400, body := .validationErr }, db)
  else ({ status := 400, body := .errorMsg "Invalid updates!" }, db)

/-- the `PATCH /users/me` endpoint, guard included. -/
def epPatchUsersMe (db : Db) (header : Option (List Char)) (body : List (String × Val)) : Response × Db :=
  runAuthed db header (fun u _ => patchUserHandler db u body)

/-- `userSchema.pre('remove')`: `Task.deleteMany({ owner: user._id })`. -/
def userPreRemove (db : Db) (u : User) : Db :=
  { db with tasks := db.tasks.filter (fun t => t.owner != u._id) }

/-- `req.user.remove()`: the cascade hook, then removal of the user doc. -/
def removeUser (db : Db) (u : User) : Db :=
  let db1 := userPreRemove db u
  { db1 with users := db1.users.filter (fun x => x._id != u._id) }

/-- `DELETE /users/me` handler body: remove (with cascade) and echo the
deleted user. -/
def deleteUserMeHandler (db : Db) (u : User) : Response × Db :=
  ({ status := 200, body := .userJson (toJSON u) }, removeUser db u)

/-- the `DELETE /users/me` endpoint, guard included. -/
def epDeleteUsersMe (db : Db) (header : Option (List Char)) : Response × Db :=
  runAuthed db header (fun u _ => deleteUserMeHandler db u)

/-! ### Task router (routers/task.js) -/

/-- task document validation at save: description is required, trimmed,
non-empty. -/
def taskValid (t : Task) : Bool :=
  t.description ≠ ""

/-- the ownership-scoped query `{ _id: id, owner: uid }` used by the
by-id task routes. -/
def taskQuery (uid id : Nat) (t : Task) : Bool :=
  t._id == id && t.owner == uid

/-- the document `new Task({ ...req.body, owner: req.user._id })`: every
body field is spread into the constructor object and the `owner` field is
then overridden with the authenticated user's id. -/
def buildTaskDoc (body : List (String × Val)) (uid newId now : Nat) : Task :=
  let obj := setKey body "owner" (Val.vNat uid)
  { _id := newId
    description := (match lookupVal obj "description" with | some v => jsTrim (castStr v) | none => "")
    completed := (match lookupVal obj "completed" with | some v => castBool v | none => false)
    owner := (match lookupVal obj "owner" with | some v => castNat v | none => 0)
    createdAt := now }

/-- `POST /tasks` handler body: construct the task from the spread object
and save it. -/
def createTask (db : Db) (user : User) (body : List (String × Val)) (newId now : Nat) : Response × Db :=
  let t := buildTaskDoc body user._id newId now
  if taskValid t then ({ status := 201, body := .task t }, { db with tasks := db.tasks ++ [t] })
  else ({ status := 400, body := .validationErr }, db)

/-- the query string of `GET /tasks`: completed, limit, skip, sortBy. -/
structure ListQuery where
  completed : Option String
  limitQ : Option Nat
  skipQ : Option Nat
  sortBy : Option String

/-- the sort key a field name denotes on a task document. -/
def sortKey (fieldName : List Char) (t : Task) : Nat :=
  if fieldName = "createdAt".data then t.createdAt
  else if fieldName = "completed".data then (if t.completed then 1 else 0)
  else 0

/-- strict comparison for `sortBy=field_asc` / `field_desc`. -/
def taskLt (fieldName : List Char) (descend : Bool) (a b : Task) : Bool :=
  if descend then sortKey fieldName b < sortKey fieldName a
  else sortKey fieldName a < sortKey fieldName b

/-- stable insertion into a sorted list. -/
def insertSorted (lt : Task → Task → Bool) (t : Task) : List Task → List Task
  | [] => [t]
  | h :: rest => if lt t h then t :: h :: rest else h :: insertSorted lt t rest

/-- stable sort of the matched tasks. -/
def sortTasks (lt : Task → Task → Bool) (l : List Task) : List Task :=
  l.foldl (fun acc t => insertSorted lt t acc) []

/-- the `match.completed` filter of `GET /tasks`: applied only when the
query string carries a truthy `completed`, comparing it to the literal
string true. -/
def applyCompletedMatch (qc : Option String) (l : List Task) : List Task :=
  match qc with
  | some s => if s = "" then l else l.filter (fun t => t.completed == (s == "true"))
  | none => l

/-- the `sortBy=field_dir` modifier of `GET /tasks`. -/
def applySortBy (qsb : Option String) (l : List Task) : List Task :=
  match qsb with
  | some s =>
    let parts := splitChar '_' s.data
    sortTasks (taskLt (parts.headD []) (parts.getD 1 [] == "desc".data)) l
  | none => l

/-- the `skip` pagination modifier of `GET /tasks`. -/
def applySkip (qs : Option Nat) (l : List Task) : List Task :=
  match qs with
  | some k => l.drop k
  | none => l

/-- the `limit` pagination modifier of `GET /tasks`. -/
def applyLimit (ql : Option Nat) (l : List Task) : List Task :=
  match ql with
  | some k => l.take k
  | none => l

/-- `GET /tasks` handler body: populate the owner's tasks with the match,
sort, skip and limit modifiers. -/
def listTasksHandler (db : Db) (user : User) (q : ListQuery) : Response :=
  { status := 200,
    body := .tasks (applyLimit q.limitQ (applySkip q.skipQ (applySortBy q.sortBy
      (applyCompletedMatch q.completed (db.tasks.filter (fun t => t.owner == user._id)))))) }

/-- `GET /tasks/:id` handler body: ownership-scoped findOne, 404 when
absent. -/
def getTaskByIdHandler (db : Db) (user : User) (id : Nat) : Response :=
  match db.tasks.find? (taskQuery user._id id) with
  | none => { status := 404, body := .empty }
  | some t => { status := 200, body := .task t }

/-- the mutable-field allow-list of `PATCH /tasks/:id`. -/
def taskAllowList : List String := ["description", "completed"]

/-- the dynamic assignment `task[update] = req.body[update]` with schema
setters applied (an assignment to `owner`, were it reachable, would
change the owner). -/
def setTaskField (t : Task) (k : String) (v : Val) : Task :=
  if k = "description" then { t with description := jsTrim (castStr v) }
  else if k = "completed" then { t with completed := castBool v }
  else if k = "owner" then { t with owner := castNat v }
  else t

/-- the `updates.forEach` loop of the task patch handler. -/
def applyTaskUpdates (t : Task) (body : List (String × Val)) : Task :=
  body.foldl (fun acc kv => setTaskField acc kv.1 kv.2) t

/-- update the stored document for a saved task (keyed by `_id`). -/
def replaceTask (db : Db) (t : Task) : Db :=
  { db with tasks := db.tasks.map (fun x => if x._id == t._id then t else x) }

/-- `PATCH /tasks/:id` handler body: allow-list check, ownership-scoped
findOne, dynamic assignment, save. -/
def patchTaskHandler (db : Db) (user : User) (id : Nat) (body : List (String × Val)) : Response × Db :=
  if (body.map (·.1)).all (fun k => taskAllowList.contains k) then
    match db.tasks.find? (taskQuery user._id id) with
    | none => ({ status := 404, body := .empty }, db)
    | some t =>
      let t1 := applyTaskUpdates t body
      if taskValid t1 then ({ status := 200, body := .task t1 }, replaceTask db t1)
      else ({ status := 400, body := .validationErr }, db)
  else ({ status := 400, body := .errorMsg "Invalid updates!" }, db)

/-- `DELETE /tasks/:id` handler body: ownership-scoped findOneAndDelete. -/
def deleteTaskHandler (db : Db) (user : User) (id : Nat) : Response × Db :=
  match db.tasks.find? (taskQuery user._id id) with
  | none => ({ status := 404, body := .empty }, db)
  | some t =>
    ({ status := 200, body := .task t }, { db with tasks := db.tasks.eraseP (taskQuery user._id id) })

/-! ### Concrete fixtures for witnesses and counterexamples -/

/-- a live token of the first example user (issued at 5). -/
def exTokenA : List Char := encTok { uid := 1, iat := 5, secret := serverSecret }

/-- a second live token of the first example user (issued at 6). -/
def exTokenA2 : List Char := encTok { uid := 1, iat := 6, secret := serverSecret }

/-- a live token of the second example user. -/
def exTokenB : List Char := encTok { uid := 2, iat := 7, secret := serverSecret }

/-- example user 1 with two live sessions. -/
def exUserA : User :=
  { _id := 1, name := "Alice", email := "a@x.com", password := .hashed (.plain "longpass1"),
    age := 30, tokens := [{ token := exTokenA }, { token := exTokenA2 }], avatar := none,
    createdAt := 0, updatedAt := 0, passwordDirty := false }

/-- example user 2. -/
def exUserB : User :=
  { _id := 2, name := "Bob", email := "b@x.com", password := .hashed (.plain "longpass2"),
    age := 25, tokens := [{ token := exTokenB }], avatar := none,
    createdAt := 0, updatedAt := 0, passwordDirty := false }

/-- a task owned by example user 1. -/
def exTask : Task := { _id := 10, description := "buy milk", completed := false, owner := 1, createdAt := 3 }

/-- the example database. -/
def exDb : Db := { users := [exUserA, exUserB], tasks := [exTask] }

/-- an arbitrary downstream route handler used to instantiate guard theorems. -/
def exHandler : User → List Char → Response × Db :=
  fun u _ => ({ status := 200, body := .userJson (toJSON u) }, exDb)

/-! ### Helper lemmas: header stripping -/

theorem headMatches_append_self (pat t : List Char) : headMatches pat (pat ++ t) = true := by
  induction pat with
  | nil => rfl
  | cons c pr ih => simp [headMatches, ih]

theorem findSub_append_self (c : Char) (pr t : List Char) :
    findSub (c :: pr) ((c :: pr) ++ t) = some ([], t) := by
  have h1 : headMatches (c :: pr) ((c :: pr) ++ t) = true := headMatches_append_self _ _
  have h2 : List.drop (c :: pr).length ((c :: pr) ++ t) = t := List.drop_left _ _
  simp only [List.cons_append, List.append_eq] at h1 h2 ⊢
  simp [findSub, h1, h2]

theorem findSub_bearer_append (t : List Char) :
    findSub bearerPat (bearerPat ++ t) = some ([], t) :=
  findSub_append_self 'B' ['e', 'a', 'r', 'e', 'r', ' '] t

theorem stripBearer_of_bearer_append (t : List Char) :
    stripBearer (bearerPat ++ t) = t := by
  simp [stripBearer, replaceFirstStr, findSub_bearer_append]

theorem findSub_eq_none_of_head_absent (c : Char) (pr : List Char) (t : List Char)
    (h : ∀ x ∈ t, x ≠ c) : findSub (c :: pr) t = none := by
  induction t with
  | nil => rfl
  | cons a rest ih =>
    have ha : a ≠ c := h a (by simp)
    have hm : headMatches (c :: pr) (a :: rest) = false := by
      simp [headMatches]
      intro hc
      exact absurd hc.symm ha
    have ihr : findSub (c :: pr) rest = none := ih (fun x hx => h x (by simp [hx]))
    simp [findSub, hm, ihr]

theorem stripBearer_of_no_B (t : List Char) (h : ∀ x ∈ t, x ≠ 'B') :
    stripBearer t = t := by
  have : findSub bearerPat t = none := findSub_eq_none_of_head_absent 'B' _ t h
  simp [stripBearer, replaceFirstStr, this]

/-! ### Helper lemmas: token encoding round-trip -/

theorem takeWhile_replicate_cons (n : Nat) (d : Char) (t : List Char) (hd : (d == 'x') = false) :
    (List.replicate n 'x' ++ d :: t).takeWhile (· == 'x') = List.replicate n 'x' := by
  induction n with
  | zero => simp [List.takeWhile, hd]
  | succ m ih => simp [List.replicate_succ, List.takeWhile, ih]

theorem dropWhile_replicate_cons (n : Nat) (d : Char) (t : List Char) (hd : (d == 'x') = false) :
    (List.replicate n 'x' ++ d :: t).dropWhile (· == 'x') = d :: t := by
  induction n with
  | zero => simp [List.dropWhile, hd]
  | succ m ih => simp [List.replicate_succ, List.dropWhile, ih]

theorem parseTok_encTok (j : Jwt) : parseTok (encTok j) = some j := by
  obtain ⟨a, b, s⟩ := j
  have hdot : (('.' : Char) == 'x') = false := by decide
  simp only [encTok, parseTok]
  rw [takeWhile_replicate_cons a '.' _ hdot, dropWhile_replicate_cons a '.' _ hdot]
  simp only []
  rw [takeWhile_replicate_cons b '.' _ hdot, dropWhile_replicate_cons b '.' _ hdot]
  simp [List.length_replicate, List.all_eq_true, List.eq_of_mem_replicate]

theorem jwtVerify_encTok (j : Jwt) (s : Nat) :
    jwtVerify (encTok j) s = if j.secret = s then some j else none := by
  simp [jwtVerify, parseTok_encTok]

theorem lookupVal_setKey_self (body : List (String × Val)) (k : String) (v : Val) :
    lookupVal (setKey body k v) k = some v := by
  simp [lookupVal, setKey, List.find?]

theorem setTaskField_allowed_keeps_id_owner (t : Task) (k : String) (v : Val)
    (hk : k ∈ taskAllowList) :
    (setTaskField t k v)._id = t._id ∧ (setTaskField t k v).owner = t.owner := by
  simp only [taskAllowList, List.mem_cons, List.not_mem_nil, or_false] at hk
  rcases hk with hk | hk <;> subst hk <;> simp [setTaskField]

theorem applyTaskUpdates_keeps_id_owner (body : List (String × Val)) (t : Task)
    (hb : ∀ k ∈ body.map (·.1), k ∈ taskAllowList) :
    (applyTaskUpdates t body)._id = t._id ∧ (applyTaskUpdates t body).owner = t.owner := by
  induction body generalizing t with
  | nil => simp [applyTaskUpdates]
  | cons kv rest ih =>
    have hk : kv.1 ∈ taskAllowList := hb kv.1 (by simp)
    have hstep := setTaskField_allowed_keeps_id_owner t kv.1 kv.2 hk
    have hrest := ih (setTaskField t kv.1 kv.2) (fun k hkm => hb k (by simp [hkm]))
    simp only [applyTaskUpdates, List.foldl_cons] at *
    exact ⟨hrest.1.trans hstep.1, hrest.2.trans hstep.2⟩

theorem mem_insertSorted (lt : Task → Task → Bool) (t x : Task) (l : List Task) :
    x ∈ insertSorted lt t l → x = t ∨ x ∈ l := by
  induction l with
  | nil => simp [insertSorted]
  | cons h rest ih =>
    simp only [insertSorted]
    by_cases hlt : lt t h = true
    · simp [hlt]
    · simp [hlt, List.mem_cons]
      intro hx
      rcases hx with hx | hx
      · tauto
      · rcases ih hx with hx | hx <;> tauto

theorem mem_sortTasks (lt : Task → Task → Bool) (x : Task) (l : List Task) :
    x ∈ sortTasks lt l → x ∈ l := by
  suffices h : ∀ acc, x ∈ l.foldl (fun acc t => insertSorted lt t acc) acc → x ∈ acc ∨ x ∈ l by
    intro hx
    rcases h [] hx with h1 | h1
    · simp at h1
    · exact h1
  induction l with
  | nil => simp
  | cons hd rest ih =>
    intro acc hx
    simp only [List.foldl_cons] at hx
    rcases ih (insertSorted lt hd acc) hx with h1 | h1
    · rcases mem_insertSorted lt hd x acc h1 with h2 | h2
      · simp [h2]
      · exact Or.inl h2
    · simp [h1]

theorem mem_encTok_ne_B (j : Jwt) (c : Char) (hc : c ∈ encTok j) : c ≠ 'B' := by
  simp only [encTok, List.mem_cons, List.mem_append] at hc
  rcases hc with h | h
  · subst h; decide
  · rcases h with h | h
    · have := List.eq_of_mem_replicate h; subst this; decide
    · rcases h with h | h
      · subst h; decide
      · rcases h with h | h
        · have := List.eq_of_mem_replicate h; subst this; decide
        · rcases h with h | h
          · subst h; decide
          · have := List.eq_of_mem_replicate h; subst this; decide


/-! ### Guard inversion -/

theorem authGuard_some_inv (db : Db) (h : List Char) (u : User) (tok : List Char)
    (hacc : authGuard db (some h) = some (u, tok)) :
    tok = stripBearer h
    ∧ ∃ j, jwtVerify tok serverSecret = some j
      ∧ u._id = j.uid
      ∧ u ∈ db.users
      ∧ ∃ td ∈ u.tokens, td.token = tok := by
  simp only [authGuard] at hacc
  split at hacc
  · exact Option.noConfusion hacc
  · rename_i j hv
    split at hacc
    · exact Option.noConfusion hacc
    · rename_i w hf
      simp only [Option.some.injEq, Prod.mk.injEq] at hacc
      obtain ⟨hw, htok⟩ := hacc
      subst hw
      subst htok
      have hp := List.find?_some hf
      have hmem := List.mem_of_find?_eq_some hf
      simp only [Bool.and_eq_true, beq_iff_eq, List.any_eq_true] at hp
      exact ⟨rfl, j, hv, hp.1, hmem, hp.2⟩


/-! ### Claim theorems -/

/-- C3: every failure cause of the authentication guard — missing
Authorization header, malformed token, wrong signature, token decoding to a
user id no stored user has, or token absent from every matching user's
token list — produces one and the same 401 response
`{error: "Please authenticate."}` with the database untouched, and the
downstream handler never runs (the result is the same constant for every
handler). -/
theorem auth_guard_uniform_failure (db : Db) (handler : User → List Char → Response × Db) :
    (runAuthed db none handler = (fail401, db))
  ∧ (∀ h, parseTok (stripBearer h) = none →
      runAuthed db (some h) handler = (fail401, db))
  ∧ (∀ h j, parseTok (stripBearer h) = some j → j.secret ≠ serverSecret →
      runAuthed db (some h) handler = (fail401, db))
  ∧ (∀ h j, jwtVerify (stripBearer h) serverSecret = some j →
      (∀ u ∈ db.users, u._id ≠ j.uid) →
      runAuthed db (some h) handler = (fail401, db))
  ∧ (∀ h j, jwtVerify (stripBearer h) serverSecret = some j →
      (∀ u ∈ db.users, ∀ td ∈ u.tokens, td.token ≠ stripBearer h) →
      runAuthed db (some h) handler = (fail401, db)) := by
  refine ⟨by simp [runAuthed, authGuard], ?_, ?_, ?_, ?_⟩
  · intro h hp
    simp [runAuthed, authGuard, jwtVerify, hp]
  · intro h j hp hs
    simp [runAuthed, authGuard, jwtVerify, hp, hs]
  · intro h j hv hu
    have hfind : db.users.find?
        (fun u => u._id == j.uid && u.tokens.any (fun td => td.token == stripBearer h)) = none := by
      rw [List.find?_eq_none]
      intro u hu2
      simp only [Bool.and_eq_true, beq_iff_eq, not_and]
      intro hid
      exact absurd hid (hu u hu2)
    simp [runAuthed, authGuard, hv, hfind]
  · intro h j hv hu
    have hfind : db.users.find?
        (fun u => u._id == j.uid && u.tokens.any (fun td => td.token == stripBearer h)) = none := by
      rw [List.find?_eq_none]
      intro u hu2
      simp only [Bool.and_eq_true, beq_iff_eq, List.any_eq_true, not_and, not_exists]
      intro _ td htd
      exact hu u hu2 td htd
    simp [runAuthed, authGuard, hv, hfind]

/-- witness for C3: each of the five failure causes, concretely
instantiated, yields the uniform 401 without running the handler. -/
theorem auth_guard_uniform_failure_app :
    runAuthed exDb none exHandler = (fail401, exDb)
  ∧ runAuthed exDb (some "garbage".data) exHandler = (fail401, exDb)
  ∧ runAuthed exDb (some (encTok { uid := 1, iat := 5, secret := 9 })) exHandler = (fail401, exDb)
  ∧ runAuthed exDb (some (encTok { uid := 3, iat := 5, secret := serverSecret })) exHandler = (fail401, exDb)
  ∧ runAuthed exDb (some (encTok { uid := 1, iat := 99, secret := serverSecret })) exHandler = (fail401, exDb) := by
  refine ⟨(auth_guard_uniform_failure exDb exHandler).1, ?_, ?_, ?_, ?_⟩
  · exact (auth_guard_uniform_failure exDb exHandler).2.1 _ (by decide)
  · exact (auth_guard_uniform_failure exDb exHandler).2.2.1 _ { uid := 1, iat := 5, secret := 9 }
      (by decide) (by decide)
  · exact (auth_guard_uniform_failure exDb exHandler).2.2.2.1 _ { uid := 3, iat := 5, secret := serverSecret }
      (by decide) (by decide)
  · exact (auth_guard_uniform_failure exDb exHandler).2.2.2.2 _ { uid := 1, iat := 99, secret := serverSecret }
      (by decide) (by decide)

/-- C10: the guard strips `Bearer ` by first-occurrence replacement, not by
requiring a leading prefix; issued tokens never contain the character `B`,
so a request whose Authorization header is exactly the bare token is
processed identically to the `Bearer `-prefixed form — in particular, any
bare live token is accepted and authenticates as the same user. -/
theorem bearer_replacement_optional (db : Db) :
    (∀ j, ∀ c ∈ encTok j, c ≠ 'B')
  ∧ (∀ t, (∀ c ∈ t, c ≠ 'B') →
      authGuard db (some t) = authGuard db (some (bearerPat ++ t)))
  ∧ (∀ t u, (∀ c ∈ t, c ≠ 'B') →
      authGuard db (some (bearerPat ++ t)) = some (u, t) →
      authGuard db (some t) = some (u, t)) := by
  have h2 : ∀ t, (∀ c ∈ t, c ≠ 'B') →
      authGuard db (some t) = authGuard db (some (bearerPat ++ t)) := by
    intro t ht
    simp only [authGuard, stripBearer_of_no_B t ht, stripBearer_of_bearer_append t]
  exact ⟨fun j c hc => mem_encTok_ne_B j c hc, h2,
    fun t u ht hacc => (h2 t ht).trans hacc⟩

/-- witness for C10: the bare live token of example user 1 is accepted and
authenticates as that user. -/
theorem bearer_replacement_optional_app :
    authGuard exDb (some exTokenA) = some (exUserA, exTokenA) :=
  (bearer_replacement_optional exDb).2.2 exTokenA exUserA (by decide) (by decide)

/-- C4: a token issued by generateAuthToken to user A embeds A's id (its
verified payload carries exactly that id); whenever the guard accepts that
token the attached identity has A's id, never another user's; and any guard
acceptance implies the token's signature verified against the server secret,
the resolved user's id equals the embedded id, and the token is present in
that user's stored token list. -/
theorem token_identity_binding (a : User) (now : Nat) :
    jwtVerify (generateAuthToken a now).1 serverSecret
      = some { uid := a._id, iat := now, secret := serverSecret }
  ∧ (∀ db h u tok, authGuard db (some h) = some (u, tok) →
      tok = (generateAuthToken a now).1 → u._id = a._id)
  ∧ (∀ db h u tok, authGuard db (some h) = some (u, tok) →
      ∃ j, jwtVerify tok serverSecret = some j
        ∧ u._id = j.uid
        ∧ ∃ td ∈ u.tokens, td.token = tok) := by
  have hv : jwtVerify (generateAuthToken a now).1 serverSecret
      = some { uid := a._id, iat := now, secret := serverSecret } := by
    show jwtVerify (encTok { uid := a._id, iat := now, secret := serverSecret }) serverSecret = _
    rw [jwtVerify_encTok]
    simp
  refine ⟨hv, ?_, ?_⟩
  · intro db h u tok hacc htok
    obtain ⟨-, j, hj, hid, -, -⟩ := authGuard_some_inv db h u tok hacc
    rw [htok, hv] at hj
    cases hj
    exact hid
  · intro db h u tok hacc
    obtain ⟨-, j, hj, hid, -, htd⟩ := authGuard_some_inv db h u tok hacc
    exact ⟨j, hj, hid, htd⟩

/-- witness for C4: the concrete token issued to example user 1 verifies to
payload id 1, and a concrete guard acceptance of it resolves to that user. -/
theorem token_identity_binding_app :
    jwtVerify (generateAuthToken exUserA 5).1 serverSecret
      = some { uid := exUserA._id, iat := 5, secret := serverSecret }
  ∧ exUserA._id = exUserA._id :=
  ⟨(token_identity_binding exUserA 5).1,
   (token_identity_binding exUserA 5).2.1 exDb exTokenA exUserA exTokenA
     (by decide) (by decide)⟩


theorem mem_applyCompletedMatch (qc : Option String) (l : List Task) (x : Task)
    (hx : x ∈ applyCompletedMatch qc l) : x ∈ l := by
  cases qc with
  | none => simpa [applyCompletedMatch] using hx
  | some s =>
    by_cases hs : s = ""
    · simpa [applyCompletedMatch, hs] using hx
    · simp only [applyCompletedMatch, hs, if_false] at hx
      exact (List.mem_filter.1 hx).1

theorem mem_applySortBy (qsb : Option String) (l : List Task) (x : Task)
    (hx : x ∈ applySortBy qsb l) : x ∈ l := by
  cases qsb with
  | none => simpa [applySortBy] using hx
  | some s =>
    simp only [applySortBy] at hx
    exact mem_sortTasks _ _ _ hx

theorem mem_applySkip (qs : Option Nat) (l : List Task) (x : Task)
    (hx : x ∈ applySkip qs l) : x ∈ l := by
  cases qs with
  | none => simpa [applySkip] using hx
  | some k =>
    simp only [applySkip] at hx
    exact List.mem_of_mem_drop hx

theorem mem_applyLimit (ql : Option Nat) (l : List Task) (x : Task)
    (hx : x ∈ applyLimit ql l) : x ∈ l := by
  cases ql with
  | none => simpa [applyLimit] using hx
  | some k =>
    simp only [applyLimit] at hx
    exact List.mem_of_mem_take hx

theorem listTasksHandler_mem (db : Db) (r : User) (q : ListQuery) (ts : List Task)
    (hb : (listTasksHandler db r q).body = Body.tasks ts) :
    ∀ x ∈ ts, x ∈ db.tasks ∧ x.owner = r._id := by
  simp only [listTasksHandler, Body.tasks.injEq] at hb
  subst hb
  intro x hx
  have h1 := mem_applySkip _ _ _ (mem_applyLimit _ _ _ hx)
  have h2 := mem_applyCompletedMatch _ _ _ (mem_applySortBy _ _ _ h1)
  have h3 := List.mem_filter.1 h2
  exact ⟨h3.1, by simpa using h3.2⟩


/-- C7 (cascade delete): `DELETE /users/me` deletes every task owned by the
removed user through the pre-remove hook, so afterwards none of that user's
prior tasks is returned by the by-id task query or by the listing query,
for any requester, and no remaining task has the deleted user as owner. -/
theorem cascade_delete_unreachable (db : Db) (a : User) (t0 : Task)
    (ht0 : t0 ∈ db.tasks) (hown : t0.owner = a._id) :
    (deleteUserMeHandler db a).1 = { status := 200, body := .userJson (toJSON a) }
  ∧ (∀ x ∈ (deleteUserMeHandler db a).2.tasks, x.owner ≠ a._id)
  ∧ t0 ∉ (deleteUserMeHandler db a).2.tasks
  ∧ (∀ r id, (getTaskByIdHandler (deleteUserMeHandler db a).2 r id).body ≠ Body.task t0)
  ∧ (∀ r q ts, (listTasksHandler (deleteUserMeHandler db a).2 r q).body = Body.tasks ts →
      t0 ∉ ts) := by
  have htasks : (deleteUserMeHandler db a).2.tasks
      = db.tasks.filter (fun t => t.owner != a._id) := rfl
  have hkeep : ∀ x ∈ (deleteUserMeHandler db a).2.tasks, x.owner ≠ a._id := by
    intro x hx
    rw [htasks] at hx
    have := (List.mem_filter.1 hx).2
    simpa using this
  refine ⟨rfl, hkeep, ?_, ?_, ?_⟩
  · intro hmem
    exact hkeep t0 hmem hown
  · intro r id
    cases hf : (deleteUserMeHandler db a).2.tasks.find? (taskQuery r._id id) with
    | none => simp [getTaskByIdHandler, hf]
    | some t =>
      simp only [getTaskByIdHandler, hf]
      intro hbody
      have ht : t = t0 := by simpa using hbody
      subst ht
      exact hkeep t (List.mem_of_find?_eq_some hf) hown
  · intro r q ts hts hmem
    have := (listTasksHandler_mem _ r q ts hts t0 hmem).1
    exact hkeep t0 this hown

/-- witness for C7: deleting example user 1 yields the 200 echo response,
with the cascade hypotheses discharged on the concrete database. -/
theorem cascade_delete_unreachable_app :
    (deleteUserMeHandler exDb exUserA).1 = { status := 200, body := .userJson (toJSON exUserA) } :=
  (cascade_delete_unreachable exDb exUserA exTask (by decide) (by decide)).1

/-- C1 counterexample: user 2 supplies the id of user 1's task to the task
patch handler with a body containing the disallowed field `owner`; the
response is 400, not the 404 the claim asserts for every such request. -/
theorem cross_tenant_404_counterexample :
    exTask ∈ exDb.tasks
  ∧ exTask.owner = exUserA._id
  ∧ exUserB._id ≠ exUserA._id
  ∧ (patchTaskHandler exDb exUserB exTask._id [("owner", Val.vNat 2)]).1.status = 400 :=
  ⟨by decide, by decide, by decide, by decide⟩

/-- C1 (amended): with task ids unique, a request authenticated as a
different user for an existing task's id gets exactly the 404-empty
response from GET and DELETE, and from PATCH whenever its body passes the
field allow-list; and a task id that does not exist at all gets the very
same responses, so the two cases are indistinguishable. -/
theorem cross_tenant_not_found (db : Db) (a b : User) (t : Task)
    (huniq : ∀ t1 ∈ db.tasks, ∀ t2 ∈ db.tasks, t1._id = t2._id → t1 = t2)
    (ht : t ∈ db.tasks) (hown : t.owner = a._id) (hne : b._id ≠ a._id) :
    getTaskByIdHandler db b t._id = { status := 404, body := .empty }
  ∧ deleteTaskHandler db b t._id = ({ status := 404, body := .empty }, db)
  ∧ (∀ body, ((body.map (·.1)).all (fun k => taskAllowList.contains k)) = true →
      patchTaskHandler db b t._id body = ({ status := 404, body := .empty }, db))
  ∧ (∀ id, (∀ t2 ∈ db.tasks, t2._id ≠ id) →
      getTaskByIdHandler db b id = { status := 404, body := .empty }
      ∧ deleteTaskHandler db b id = ({ status := 404, body := .empty }, db)
      ∧ (∀ body, ((body.map (·.1)).all (fun k => taskAllowList.contains k)) = true →
          patchTaskHandler db b id body = ({ status := 404, body := .empty }, db))) := by
  have hfind : db.tasks.find? (taskQuery b._id t._id) = none := by
    rw [List.find?_eq_none]
    intro x hx
    simp only [taskQuery, Bool.and_eq_true, beq_iff_eq, not_and]
    intro hid hob
    have hxt : x = t := huniq x hx t ht hid
    subst hxt
    rw [hown] at hob
    exact hne hob.symm
  have habsent : ∀ id, (∀ t2 ∈ db.tasks, t2._id ≠ id) →
      db.tasks.find? (taskQuery b._id id) = none := by
    intro id hid
    rw [List.find?_eq_none]
    intro x hx
    simp only [taskQuery, Bool.and_eq_true, beq_iff_eq, not_and]
    intro hxid
    exact absurd hxid (hid x hx)
  have hpatch : ∀ id body, db.tasks.find? (taskQuery b._id id) = none →
      ((body.map (·.1)).all (fun k => taskAllowList.contains k)) = true →
      patchTaskHandler db b id body = ({ status := 404, body := .empty }, db) := by
    intro id body hf hallow
    unfold patchTaskHandler
    rw [hallow]
    simp [hf]
  refine ⟨by simp [getTaskByIdHandler, hfind], by simp [deleteTaskHandler, hfind], ?_, ?_⟩
  · intro body hallow
    exact hpatch _ body hfind hallow
  · intro id hid
    have hf2 := habsent id hid
    exact ⟨by simp [getTaskByIdHandler, hf2], by simp [deleteTaskHandler, hf2],
      fun body hallow => hpatch id body hf2 hallow⟩

/-- witness for C1 (amended): user 2 requesting user 1's task by id gets
the 404-empty response, on the concrete database. -/
theorem cross_tenant_not_found_app :
    getTaskByIdHandler exDb exUserB exTask._id = { status := 404, body := .empty } :=
  (cross_tenant_not_found exDb exUserA exUserB exTask
    (by decide) (by decide) (by decide) (by decide)).1


theorem buildTaskDoc_owner (body : List (String × Val)) (uid newId now : Nat) :
    (buildTaskDoc body uid newId now).owner = uid := by
  simp [buildTaskDoc, lookupVal_setKey_self, castNat]

/-- C2: the owner of a task is server-assigned and immutable — a created
task's owner is the authenticated requester's id even when the request body
supplies an `owner` field (the spread is overridden); the task patch
allow-list excludes `owner`; and the task patch handler never changes the
`(_id, owner)` association of any stored task, whatever the body. -/
theorem owner_immutable (db : Db) (u : User) (body : List (String × Val)) (id newId now : Nat)
    (huniq : ∀ t1 ∈ db.tasks, ∀ t2 ∈ db.tasks, t1._id = t2._id → t1 = t2) :
    "owner" ∉ taskAllowList
  ∧ (∀ t ∈ (createTask db u body newId now).2.tasks, t ∈ db.tasks ∨ t.owner = u._id)
  ∧ (∀ t, (createTask db u body newId now).1.body = Body.task t → t.owner = u._id)
  ∧ ((patchTaskHandler db u id body).2.tasks.map (fun t => (t._id, t.owner))
      = db.tasks.map (fun t => (t._id, t.owner))) := by
  refine ⟨by decide, ?_, ?_, ?_⟩
  · intro t htmem
    by_cases hv : taskValid (buildTaskDoc body u._id newId now) = true
    · have heq : (createTask db u body newId now).2.tasks
          = db.tasks ++ [buildTaskDoc body u._id newId now] := by
        simp [createTask, hv]
      rw [heq] at htmem
      rcases List.mem_append.1 htmem with h | h
      · exact Or.inl h
      · right
        have ht : t = buildTaskDoc body u._id newId now := by simpa using h
        rw [ht, buildTaskDoc_owner]
    · have heq : (createTask db u body newId now).2.tasks = db.tasks := by
        simp [createTask, hv]
      rw [heq] at htmem
      exact Or.inl htmem
  · intro t hbody
    by_cases hv : taskValid (buildTaskDoc body u._id newId now) = true
    · have heq : (createTask db u body newId now).1.body
          = Body.task (buildTaskDoc body u._id newId now) := by
        simp [createTask, hv]
      rw [heq] at hbody
      have ht : buildTaskDoc body u._id newId now = t := by simpa using hbody
      rw [← ht, buildTaskDoc_owner]
    · have heq : (createTask db u body newId now).1.body = Body.validationErr := by
        simp [createTask, hv]
      rw [heq] at hbody
      exact absurd hbody (by simp)
  · by_cases hallow : ((body.map (·.1)).all (fun k => taskAllowList.contains k)) = true
    · cases hf : db.tasks.find? (taskQuery u._id id) with
      | none =>
        have heq : (patchTaskHandler db u id body).2 = db := by
          unfold patchTaskHandler
          rw [hallow]
          simp [hf]
        rw [heq]
      | some t =>
        have hkeys : ∀ k ∈ body.map (·.1), k ∈ taskAllowList := by
          intro k hkm
          have := List.all_eq_true.1 hallow k hkm
          simpa using this
        have hpres := applyTaskUpdates_keeps_id_owner body t hkeys
        have htmem := List.mem_of_find?_eq_some hf
        have hpq := List.find?_some hf
        simp only [taskQuery, Bool.and_eq_true, beq_iff_eq] at hpq
        by_cases hvv : taskValid (applyTaskUpdates t body) = true
        · have heq : (patchTaskHandler db u id body).2
              = replaceTask db (applyTaskUpdates t body) := by
            unfold patchTaskHandler
            rw [hallow]
            simp [hf, hvv]
          rw [heq]
          simp only [replaceTask]
          rw [List.map_map]
          apply List.map_congr_left
          intro x hxmem
          by_cases hx : (x._id == (applyTaskUpdates t body)._id) = true
          · have hxid : x._id = t._id := by
              rw [hpres.1] at hx
              exact beq_iff_eq.1 hx
            have hxt : x = t := huniq x hxmem t htmem hxid
            subst hxt
            simp only [Function.comp_apply, hx, if_true]
            rw [hpres.1, hpres.2]
          · simp only [Function.comp_apply, hx]
            simp
        · have heq : (patchTaskHandler db u id body).2 = db := by
            unfold patchTaskHandler
            rw [hallow]
            simp [hf, hvv]
          rw [heq]
    · have hfalse : ((body.map (·.1)).all (fun k => taskAllowList.contains k)) = false := by
        revert hallow
        cases ((body.map (·.1)).all (fun k => taskAllowList.contains k)) <;> simp
      have heq : (patchTaskHandler db u id body).2 = db := by
        unfold patchTaskHandler
        rw [hfalse]
        simp
      rw [heq]

/-- witness for C2: a concrete create whose body tries to set `owner` to
user 2 still records user 1 as owner, and a concrete allowed patch keeps
every `(_id, owner)` pair. -/
theorem owner_immutable_app :
    (buildTaskDoc [("description", Val.vStr "laundry"), ("owner", Val.vNat 2)] 1 11 4).owner = exUserA._id
  ∧ ((patchTaskHandler exDb exUserA 10 [("completed", Val.vBool true)]).2.tasks.map (fun t => (t._id, t.owner))
      = exDb.tasks.map (fun t => (t._id, t.owner))) :=
  ⟨(owner_immutable exDb exUserA [("description", Val.vStr "laundry"), ("owner", Val.vNat 2)] 10 11 4
      (by decide)).2.2.1 _ (by decide),
   (owner_immutable exDb exUserA [("completed", Val.vBool true)] 10 11 4 (by decide)).2.2.2⟩


/-- C8: a patch body containing any field outside the entity's allow-list
(users: name, email, password, age; tasks: description, completed) makes
the whole update fail with status 400 and the structured body
`{error: "Invalid updates!"}`, leaving the database — hence every field of
every record, including allowed fields named in the same request —
completely unchanged. -/
theorem allow_list_rejects_wholesale (db : Db) (u : User) (id : Nat)
    (body : List (String × Val)) (k : String) (hk : k ∈ body.map (·.1)) :
    (k ∉ userAllowList →
      patchUserHandler db u body = ({ status := 400, body := .errorMsg "Invalid updates!" }, db))
  ∧ (k ∉ taskAllowList →
      patchTaskHandler db u id body = ({ status := 400, body := .errorMsg "Invalid updates!" }, db)) := by
  constructor
  · intro hkn
    have hfalse : ((body.map (·.1)).all (fun x => userAllowList.contains x)) = false := by
      cases hall : ((body.map (·.1)).all (fun x => userAllowList.contains x)) with
      | false => rfl
      | true =>
        have := List.all_eq_true.1 hall k hk
        exact absurd (by simpa using this) hkn
    unfold patchUserHandler
    rw [hfalse]
    simp
  · intro hkn
    have hfalse : ((body.map (·.1)).all (fun x => taskAllowList.contains x)) = false := by
      cases hall : ((body.map (·.1)).all (fun x => taskAllowList.contains x)) with
      | false => rfl
      | true =>
        have := List.all_eq_true.1 hall k hk
        exact absurd (by simpa using this) hkn
    unfold patchTaskHandler
    rw [hfalse]
    simp

/-- witness for C8: a user patch naming `tokens` alongside an allowed field
and a task patch naming `owner` alongside an allowed field are both
rejected with the 400 `Invalid updates!` body and an unchanged database. -/
theorem allow_list_rejects_wholesale_app :
    patchUserHandler exDb exUserA [("name", Val.vStr "Al"), ("tokens", Val.vNat 0)]
      = ({ status := 400, body := .errorMsg "Invalid updates!" }, exDb)
  ∧ patchTaskHandler exDb exUserA 10 [("completed", Val.vBool true), ("owner", Val.vNat 2)]
      = ({ status := 400, body := .errorMsg "Invalid updates!" }, exDb) :=
  ⟨(allow_list_rejects_wholesale exDb exUserA 10 [("name", Val.vStr "Al"), ("tokens", Val.vNat 0)]
      "tokens" (by decide)).1 (by decide),
   (allow_list_rejects_wholesale exDb exUserA 10 [("completed", Val.vBool true), ("owner", Val.vNat 2)]
      "owner" (by decide)).2 (by decide)⟩

/-- C9: the user JSON serialization is invariant under the password, the
token list, the avatar blob (and the internal dirty flag) — two records
differing only there serialize identically — and the response bodies that
carry a user (here GET /users/me and the DELETE /users/me echo) are built
from exactly this serialization. -/
theorem user_json_omits_private (db : Db) (header : Option (List Char)) :
    (∀ u p tks av d,
      toJSON { u with password := p, tokens := tks, avatar := av, passwordDirty := d } = toJSON u)
  ∧ (∀ u tok, authGuard db header = some (u, tok) →
      epGetUsersMe db header = ({ status := 200, body := .userJson (toJSON u) }, db))
  ∧ (∀ u, deleteUserMeHandler db u
      = ({ status := 200, body := .userJson (toJSON u) }, removeUser db u)) := by
  refine ⟨fun u p tks av d => rfl, ?_, fun u => rfl⟩
  intro u tok hacc
  simp [epGetUsersMe, runAuthed, hacc]

/-- witness for C9: changing example user 1's password, tokens and avatar
does not change the serialization, and the authenticated GET /users/me
response carries exactly that serialization. -/
theorem user_json_omits_private_app :
    toJSON { exUserA with password := .plain "other", tokens := [], avatar := some [1, 2], passwordDirty := true } = toJSON exUserA
  ∧ epGetUsersMe exDb (some (bearerPat ++ exTokenA))
      = ({ status := 200, body := .userJson (toJSON exUserA) }, exDb) :=
  ⟨(user_json_omits_private exDb (some (bearerPat ++ exTokenA))).1 exUserA (.plain "other") [] (some [1, 2]) true,
   (user_json_omits_private exDb (some (bearerPat ++ exTokenA))).2.1 exUserA exTokenA (by decide)⟩


theorem preSaveHash_tokens (u : User) : (preSaveHash u).tokens = u.tokens := by
  unfold preSaveHash
  split <;> rfl

theorem preSaveHash_id (u : User) : (preSaveHash u)._id = u._id := by
  unfold preSaveHash
  split <;> rfl

theorem find?_map_replace (l : List User) (a a2 : User) (p : User → Bool)
    (ha : a ∈ l)
    (huniq : ∀ x ∈ l, x._id = a._id → x = a)
    (hid : a2._id = a._id)
    (hpother : ∀ x ∈ l, x._id ≠ a._id → p x = false)
    (hpa2 : p a2 = true) :
    (l.map (fun x => if x._id == a2._id then a2 else x)).find? p = some a2 := by
  induction l with
  | nil => cases ha
  | cons h rest ih =>
    simp only [List.map_cons]
    by_cases hh : h._id = a._id
    · have hbeq : (h._id == a2._id) = true := by
        rw [hid]
        exact beq_iff_eq.2 hh
      simp only [hbeq, if_true]
      exact List.find?_cons_of_pos _ hpa2
    · have hbeq : (h._id == a2._id) = false := by
        rw [hid]
        exact beq_eq_false_iff_ne.2 hh
      have hph : p h = false := hpother h (by simp) hh
      simp only [hbeq, Bool.false_eq_true, if_false]
      rw [List.find?_cons_of_neg _ (by simp [hph])]
      have harest : a ∈ rest := by
        rcases List.mem_cons.1 ha with heq | hm
        · subst heq
          exact absurd rfl hh
        · exact hm
      exact ih harest (fun x hx hxa => huniq x (by simp [hx]) hxa)
        (fun x hx hxa => hpother x (by simp [hx]) hxa)

theorem find?_map_replace_none (l : List User) (a2 : User) (p : User → Bool)
    (hpother : ∀ x ∈ l, x._id ≠ a2._id → p x = false)
    (hpa2 : p a2 = false) :
    (l.map (fun x => if x._id == a2._id then a2 else x)).find? p = none := by
  rw [List.find?_eq_none]
  intro y hy
  rcases List.mem_map.1 hy with ⟨x, hx, rfl⟩
  by_cases hxx : (x._id == a2._id) = true
  · simp [hxx, hpa2]
  · simp only [hxx, Bool.false_eq_true, if_false]
    simp [hpother x hx (by simpa using hxx)]


/-- C5: logging out with token T removes exactly T from the caller's token
list (an entry survives iff it was there and is not T), every other live
token of that user is still accepted by the guard afterwards and resolves
to the same account; logging out of all sessions empties the token list,
after which any token issued to that user — whatever its issue time — is
rejected with the uniform 401 on GET /users/me. -/
theorem revocation_exact (db : Db) (a : User) (header : Option (List Char)) (tok : List Char)
    (hacc : authGuard db header = some (a, tok))
    (hval : validateUser a = true)
    (huniq : ∀ x ∈ db.users, ∀ y ∈ db.users, x._id = y._id → x = y) :
    epLogout db header = ({ status := 200, body := .empty }, replaceUser db (revokeOne a tok))
  ∧ (∀ td, td ∈ (revokeOne a tok).tokens ↔ td ∈ a.tokens ∧ td.token ≠ tok)
  ∧ (∀ iat,
      { token := encTok { uid := a._id, iat := iat, secret := serverSecret } } ∈ a.tokens →
      encTok { uid := a._id, iat := iat, secret := serverSecret } ≠ tok →
      authGuard (replaceUser db (revokeOne a tok))
          (some (bearerPat ++ encTok { uid := a._id, iat := iat, secret := serverSecret }))
        = some (revokeOne a tok, encTok { uid := a._id, iat := iat, secret := serverSecret }))
  ∧ epLogoutAll db header = ({ status := 200, body := .empty }, replaceUser db (revokeAll a))
  ∧ (∀ iat, epGetUsersMe (replaceUser db (revokeAll a))
        (some (bearerPat ++ encTok { uid := a._id, iat := iat, secret := serverSecret }))
      = (fail401, replaceUser db (revokeAll a))) := by
  have hamem : a ∈ db.users := by
    cases header with
    | none => simp [authGuard] at hacc
    | some h =>
      obtain ⟨-, j, -, -, hm, -⟩ := authGuard_some_inv db h a tok hacc
      exact hm
  have hsave1 : saveUser { a with tokens := a.tokens.filter (fun td => td.token != tok) }
      = some (revokeOne a tok) := by
    have hv2 : validateUser { a with tokens := a.tokens.filter (fun td => td.token != tok) } = true := hval
    simp [saveUser, revokeOne, hv2]
  have hsave2 : saveUser { a with tokens := ([] : List TokenDoc) } = some (revokeAll a) := by
    have hv2 : validateUser { a with tokens := ([] : List TokenDoc) } = true := hval
    simp [saveUser, revokeAll, hv2]
  have htoks1 : (revokeOne a tok).tokens = a.tokens.filter (fun td => td.token != tok) :=
    preSaveHash_tokens _
  have htoks2 : (revokeAll a).tokens = [] := preSaveHash_tokens _
  have hid1 : (revokeOne a tok)._id = a._id := preSaveHash_id _
  have hid2 : (revokeAll a)._id = a._id := preSaveHash_id _
  refine ⟨?_, ?_, ?_, ?_, ?_⟩
  · simp [epLogout, runAuthed, hacc, logoutHandler, hsave1]
  · intro td
    rw [htoks1]
    simp [List.mem_filter]
  · intro iat hmemT hneT
    have hstrip : stripBearer (bearerPat ++ encTok { uid := a._id, iat := iat, secret := serverSecret })
        = encTok { uid := a._id, iat := iat, secret := serverSecret } :=
      stripBearer_of_bearer_append _
    have hver : jwtVerify (encTok { uid := a._id, iat := iat, secret := serverSecret }) serverSecret
        = some { uid := a._id, iat := iat, secret := serverSecret } := by
      rw [jwtVerify_encTok]
      simp
    have hpa2 : ((revokeOne a tok)._id == a._id
        && (revokeOne a tok).tokens.any
          (fun td => td.token == encTok { uid := a._id, iat := iat, secret := serverSecret })) = true := by
      rw [hid1, htoks1]
      simp only [beq_self_eq_true, Bool.true_and, List.any_eq_true]
      refine ⟨{ token := encTok { uid := a._id, iat := iat, secret := serverSecret } }, ?_, by simp⟩
      rw [List.mem_filter]
      exact ⟨hmemT, by simpa using hneT⟩
    have hfind := find?_map_replace db.users a (revokeOne a tok)
      (fun x => x._id == a._id
        && x.tokens.any (fun td => td.token == encTok { uid := a._id, iat := iat, secret := serverSecret }))
      hamem (fun x hx hxa => huniq x hx a hamem hxa) hid1
      (fun x hx hxa => by simp [beq_eq_false_iff_ne.2 hxa])
      hpa2
    simp only [authGuard, hstrip, hver, replaceUser]
    rw [hfind]
  · simp [epLogoutAll, runAuthed, hacc, logoutAllHandler, hsave2]
  · intro iat
    have hstrip : stripBearer (bearerPat ++ encTok { uid := a._id, iat := iat, secret := serverSecret })
        = encTok { uid := a._id, iat := iat, secret := serverSecret } :=
      stripBearer_of_bearer_append _
    have hver : jwtVerify (encTok { uid := a._id, iat := iat, secret := serverSecret }) serverSecret
        = some { uid := a._id, iat := iat, secret := serverSecret } := by
      rw [jwtVerify_encTok]
      simp
    have hpa3 : ((revokeAll a)._id == a._id
        && (revokeAll a).tokens.any
          (fun td => td.token == encTok { uid := a._id, iat := iat, secret := serverSecret })) = false := by
      rw [htoks2]
      simp
    have hfind := find?_map_replace_none db.users (revokeAll a)
      (fun x => x._id == a._id
        && x.tokens.any (fun td => td.token == encTok { uid := a._id, iat := iat, secret := serverSecret }))
      (fun x hx hxa => by
        rw [hid2] at hxa
        simp [beq_eq_false_iff_ne.2 hxa])
      hpa3
    have hguard : authGuard (replaceUser db (revokeAll a))
        (some (bearerPat ++ encTok { uid := a._id, iat := iat, secret := serverSecret })) = none := by
      simp only [authGuard, hstrip, hver, replaceUser]
      rw [hfind]
    simp [epGetUsersMe, runAuthed, hguard]

/-- witness for C5: logging example user 1 out of the first session yields
200 and the filtered store; the second session token is still accepted and
resolves to the same account; after logout-all the first token gets the
uniform 401 from GET /users/me. -/
theorem revocation_exact_app :
    epLogout exDb (some exTokenA)
      = ({ status := 200, body := .empty }, replaceUser exDb (revokeOne exUserA exTokenA))
  ∧ authGuard (replaceUser exDb (revokeOne exUserA exTokenA)) (some (bearerPat ++ exTokenA2))
      = some (revokeOne exUserA exTokenA, exTokenA2)
  ∧ epGetUsersMe (replaceUser exDb (revokeAll exUserA)) (some (bearerPat ++ exTokenA))
      = (fail401, replaceUser exDb (revokeAll exUserA)) :=
  ⟨(revocation_exact exDb exUserA (some exTokenA) exTokenA (by decide) (by decide) (by decide)).1,
   (revocation_exact exDb exUserA (some exTokenA) exTokenA (by decide) (by decide) (by decide)).2.2.1
     6 (by decide) (by decide),
   (revocation_exact exDb exUserA (some exTokenA) exTokenA (by decide) (by decide) (by decide)).2.2.2.2
     5⟩


theorem preSaveHash_name (u : User) : (preSaveHash u).name = u.name := by
  unfold preSaveHash
  split <;> rfl

theorem preSaveHash_email (u : User) : (preSaveHash u).email = u.email := by
  unfold preSaveHash
  split <;> rfl

theorem preSaveHash_dirty_false (u : User) : (preSaveHash u).passwordDirty = false := by
  unfold preSaveHash
  split
  · rfl
  · rename_i h
    simpa using h

theorem preSaveHash_of_not_dirty (u : User) (h : u.passwordDirty = false) :
    preSaveHash u = u := by
  simp [preSaveHash, h]

theorem preSaveHash_password_of_dirty (u : User) (h : u.passwordDirty = true) :
    (preSaveHash u).password = .hashed u.password := by
  simp [preSaveHash, h, bcryptHash]

theorem validateUser_set_tokens (u : User) (l : List TokenDoc) :
    validateUser { u with tokens := l } = validateUser u := rfl


/-- C6 counterexample: the password `longenough1 ` (trailing space) meets
the claim's validity conditions — length at least 7 and not containing the
word password — and registration indeed succeeds with 201; yet logging in
through findByCredentials with that very plaintext fails, because the
schema's trim setter stored the hash of the trimmed password. -/
theorem password_roundtrip_counterexample :
    7 ≤ "longenough1 ".length
  ∧ hasSub "password".data (jsLower "longenough1 ").data = false
  ∧ (registerUser { users := [], tasks := [] }
      [("name", Val.vStr "Eve"), ("email", Val.vStr "a@x.com"), ("password", Val.vStr "longenough1 ")]
      7 9).1.status = 201
  ∧ findByCredentials
      (registerUser { users := [], tasks := [] }
        [("name", Val.vStr "Eve"), ("email", Val.vStr "a@x.com"), ("password", Val.vStr "longenough1 ")]
        7 9).2
      "a@x.com" "longenough1 " = none :=
  ⟨by decide, by decide, by decide, by decide⟩


/-- C6 (amended): for a registration whose fields are in the normalized
form the schema setters store (name and password trimmed, email trimmed
and lowercased) with a fresh email and a password of length at least 7 not
containing the word password, registration succeeds with 201; the stored
password is the bcrypt hash of the plaintext and is never the plaintext
itself; findByCredentials with the same email and plaintext then succeeds;
and the pre-save hook hashes only dirty passwords, so re-saving an
unmodified user never re-hashes (the registration path itself saves twice
and hashes once). -/
theorem password_hashing_roundtrip (db : Db) (body : List (String × Val))
    (newId now : Nat) (nm em p : String)
    (hn1 : lookupVal body "name" = some (Val.vStr nm)) (hn2 : jsTrim nm = nm) (hn3 : nm ≠ "")
    (he1 : lookupVal body "email" = some (Val.vStr em)) (he2 : jsTrim em = em)
    (he3 : jsLower em = em) (he4 : emailOk em = true)
    (hp1 : lookupVal body "password" = some (Val.vStr p)) (hp2 : jsTrim p = p)
    (hp3 : 7 ≤ p.length) (hp4 : hasSub "password".data (jsLower p).data = false)
    (hfresh : ∀ x ∈ db.users, x.email ≠ em) :
    registerUser db body newId now
      = ({ status := 201,
           body := .userWithToken (toJSON (registeredUser body newId now))
             (encTok { uid := newId, iat := now, secret := serverSecret }) },
         { db with users := db.users ++ [registeredUser body newId now] })
  ∧ (registeredUser body newId now).password = .hashed (.plain p)
  ∧ PwdVal.hashed (.plain p) ≠ .plain p
  ∧ findByCredentials { db with users := db.users ++ [registeredUser body newId now] } em p
      = some (registeredUser body newId now)
  ∧ (∀ w : User, w.passwordDirty = false → saveUser w = none ∨ saveUser w = some w) := by
  have hbn : (buildUser body newId now).name = nm := by
    simp [buildUser, hn1, castStr, hn2]
  have hbe : (buildUser body newId now).email = em := by
    simp [buildUser, he1, castStr, he2, he3]
  have hbp : (buildUser body newId now).password = .plain p := by
    simp [buildUser, hp1, castStr, hp2]
  have hbd : (buildUser body newId now).passwordDirty = true := by
    simp [buildUser, hp1]
  have hpwd : pwdOk (PwdVal.plain p) = true := by
    simp [pwdOk, hp3, hp4]
  have hval0 : validateUser (buildUser body newId now) = true := by
    simp [validateUser, hbn, hbe, hbp, hn2, hn3, he4, hpwd]
  have hbid : (buildUser body newId now)._id = newId := rfl
  have hgen : generateAuthToken (buildUser body newId now) now
      = (encTok { uid := newId, iat := now, secret := serverSecret },
         some (registeredUser body newId now)) := by
    simp [generateAuthToken, registeredUser, saveUser, hbid, validateUser,
      hbn, hbe, hbp, hn2, hn3, he4, hpwd]
  have hrege : (registeredUser body newId now).email = em := by
    simp [registeredUser, preSaveHash, hbd, hbe]
  have hregn : (registeredUser body newId now).name = nm := by
    simp [registeredUser, preSaveHash, hbd, hbn]
  have hregp : (registeredUser body newId now).password = .hashed (.plain p) := by
    simp [registeredUser, preSaveHash, hbd, hbp, bcryptHash]
  have hregd : (registeredUser body newId now).passwordDirty = false :=
    preSaveHash_dirty_false _
  have hany : (db.users.any (fun x => x.email == (registeredUser body newId now).email)) = false := by
    rw [List.any_eq_false]
    intro x hx
    rw [hrege]
    simpa using hfresh x hx
  have hval2 : validateUser (registeredUser body newId now) = true := by
    simp [validateUser, hregn, hrege, hregp, hn2, hn3, he4, pwdOk]
  have hsave2 : saveUser (registeredUser body newId now) = some (registeredUser body newId now) := by
    simp [saveUser, hval2, preSaveHash_of_not_dirty _ hregd]
  have hmain : registerUser db body newId now
      = ({ status := 201,
           body := .userWithToken (toJSON (registeredUser body newId now))
             (encTok { uid := newId, iat := now, secret := serverSecret }) },
         { db with users := db.users ++ [registeredUser body newId now] }) := by
    simp [registerUser, hgen, hany, hsave2]
  refine ⟨hmain, hregp, fun h => PwdVal.noConfusion h, ?_, ?_⟩
  · have hf1 : db.users.find? (fun u => u.email == em) = none := by
      rw [List.find?_eq_none]
      intro x hx
      simpa using hfresh x hx
    have hf2 : (db.users ++ [registeredUser body newId now]).find? (fun u => u.email == em)
        = some (registeredUser body newId now) := by
      rw [List.find?_append, hf1]
      simp [List.find?, hrege]
    simp [findByCredentials, hf2, bcryptCompare, hregp, bcryptHash]
  · intro w hw
    by_cases hv : validateUser w = true
    · right
      simp [saveUser, hv, preSaveHash_of_not_dirty _ hw]
    · left
      simp [saveUser, hv]

/-- witness for C6 (amended): registering Eve with email a@x.com and
password longenough1 on an empty database stores the single bcrypt hash
and findByCredentials with the same plaintext then resolves her account. -/
theorem password_hashing_roundtrip_app :
    (registeredUser [("name", Val.vStr "Eve"), ("email", Val.vStr "a@x.com"),
        ("password", Val.vStr "longenough1")] 7 9).password
      = .hashed (.plain "longenough1")
  ∧ findByCredentials
      { users := [] ++ [registeredUser [("name", Val.vStr "Eve"), ("email", Val.vStr "a@x.com"),
          ("password", Val.vStr "longenough1")] 7 9], tasks := [] }
      "a@x.com" "longenough1"
      = some (registeredUser [("name", Val.vStr "Eve"), ("email", Val.vStr "a@x.com"),
          ("password", Val.vStr "longenough1")] 7 9) :=
  ⟨(password_hashing_roundtrip { users := [], tasks := [] }
      [("name", Val.vStr "Eve"), ("email", Val.vStr "a@x.com"), ("password", Val.vStr "longenough1")]
      7 9 "Eve" "a@x.com" "longenough1"
      (by decide) (by decide) (by decide) (by decide) (by decide) (by decide) (by decide)
      (by decide) (by decide) (by decide) (by decide) (by decide)).2.1,
   (password_hashing_roundtrip { users := [], tasks := [] }
      [("name", Val.vStr "Eve"), ("email", Val.vStr "a@x.com"), ("password", Val.vStr "longenough1")]
      7 9 "Eve" "a@x.com" "longenough1"
      (by decide) (by decide) (by decide) (by decide) (by decide) (by decide) (by decide)
      (by decide) (by decide) (by decide) (by decide) (by decide)).2.2.2.1⟩

end TaskManager
